import Mathlib

/-!
# Connection registry, heartbeat and routing core of the WebSocket relay

Shallow embedding of `src/main.go` (addressed unicast relay) and
`src/websocket_server/main.go` (broadcast relay).

Modelling conventions.

* A Go `string` / `[]byte` is a Lean `String`; a Go `int` is an `Int`.
* A `*websocket.Conn` is a handle (`Nat`).  The transport itself is outside the
  repository: every `WriteMessage` attempt and every `Close` call is appended to
  the event log of the world, and a write fails exactly on the handles listed in
  `State.broken`.
* A `*Client` is modelled by the value it points to when the function runs.
* `clients` (a Go `map[string]*Client`) is an association list; `range` visits
  it in an order chosen by the runtime, modelled by a `MapOrder`.
* `clientsMu` is a `sync.Mutex`, which is not reentrant: `Lock` on a held mutex
  parks the calling goroutine.  Functions are run sequentially, one goroutine
  at a time; since every `Unlock` of the program is executed by the goroutine
  that took the lock, a goroutine that parks on a mutex it holds itself never
  resumes.  That outcome is `Outcome.blocked`.
-/

namespace Relay

/-! ## Data model -/

/-- Client structure (`type Client struct`), identical in both source files. -/
structure Client where
  ID : String
  Conn : Nat
  LastActive : Int
deriving DecidableEq, Repr

/-- Observable effects on the transport: write attempts (with their result) and
close calls, per connection handle. -/
inductive Event where
  | write (conn : Nat) (messageType : Int) (data : String) (ok : Bool)
  | close (conn : Nat)
deriving DecidableEq, Repr

/-- The world: the package-level `clients` map, the mutex `clientsMu`, the set
of connections on which a write returns an error, and the transport log. -/
structure State where
  clients : List (String × Client)
  locked : Bool
  broken : List Nat
  log : List Event
deriving DecidableEq, Repr

/-- Go `error` values produced by the functions below. -/
inductive GoError where
  | errorf (msg : String)
  | transport (conn : Nat)
deriving DecidableEq, Repr

/-- Result of running a function body in one goroutine: it returns, it parks
forever in `clientsMu.Lock()`, or the runtime aborts (`Unlock` of an unlocked
mutex). -/
inductive Outcome (α : Type) where
  | returned (s : State) (a : α)
  | blocked (s : State)
  | fatal (s : State)
deriving DecidableEq, Repr

/-- Sequencing of statements. -/
def Outcome.andThen {α β : Type} (o : Outcome α) (f : State → α → Outcome β) : Outcome β :=
  match o with
  | Outcome.returned s a => f s a
  | Outcome.blocked s => Outcome.blocked s
  | Outcome.fatal s => Outcome.fatal s

/-- Iteration order of `range clients`: some permutation of the entries. -/
structure MapOrder where
  order : List (String × Client) → List (String × Client)
  perm : ∀ m, (order m).Perm m

/-! ## Go map operations -/

/-- Map read, `clients[key]` with the comma-ok form. -/
def mapGet : List (String × Client) → String → Option Client
  | [], _ => none
  | (k, v) :: m, key => if k = key then some v else mapGet m key

/-- Builtin `delete(clients, key)`. -/
def mapDelete (m : List (String × Client)) (key : String) : List (String × Client) :=
  m.filter fun e => decide (e.1 ≠ key)

/-- Map assignment, `clients[key] = v`: the entry for `key` is created or replaced. -/
def mapSet (m : List (String × Client)) (key : String) (v : Client) : List (String × Client) :=
  (key, v) :: mapDelete m key

/-- Keys of the map. -/
def mapKeys (m : List (String × Client)) : List String := m.map Prod.fst

/-! ## Mutex and transport -/

/-- Method `clientsMu.Lock()`. -/
def Lock (s : State) : Outcome Unit :=
  if s.locked then Outcome.blocked s else Outcome.returned { s with locked := true } ()

/-- Method `clientsMu.Unlock()`. -/
def Unlock (s : State) : Outcome Unit :=
  if s.locked then Outcome.returned { s with locked := false } () else Outcome.fatal s

/-- Method `conn.WriteMessage(messageType, data)`: one write attempt on the
connection, which fails iff the connection is broken. -/
def WriteMessage (conn : Nat) (messageType : Int) (data : String) (s : State) :
    State × Option GoError :=
  if conn ∈ s.broken then
    ({ s with log := s.log ++ [Event.write conn messageType data false] },
      some (GoError.transport conn))
  else
    ({ s with log := s.log ++ [Event.write conn messageType data true] }, none)

/-- Method `conn.Close()`; its result is ignored by every caller. -/
def Close (conn : Nat) (s : State) : State :=
  { s with log := s.log ++ [Event.close conn] }

/-- Frame type `websocket.TextMessage`. -/
def TextMessage : Int := 1

/-- Frame type `websocket.PingMessage`. -/
def PingMessage : Int := 9

/-! ## Time -/

/-- Largest `time.Duration` (int64 nanoseconds). -/
def maxDuration : Int := 2 ^ 63 - 1

/-- Smallest `time.Duration`. -/
def minDuration : Int := -(2 ^ 63)

/-- Method `t.Sub(u)`: the duration `t - u`, saturated to the int64 range. -/
def Sub (t u : Int) : Int :=
  if t - u > maxDuration then maxDuration
  else if t - u < minDuration then minDuration
  else t - u

/-- Function `time.Since(t)`, evaluated when the clock reads `now`. -/
def Since (now t : Int) : Int := Sub now t

/-- Constant `time.Second`, in nanoseconds. -/
def Second : Int := 1000000000

/-- Send a ping every 5 seconds. -/
def pingInterval : Int := 5 * Second

/-- Disconnect if no pong within 10 seconds. -/
def pongTimeout : Int := 10 * Second

/-! ## Functions shared by both source files -/

/-- Disconnects and removes a client from the list. -/
def disconnectClient (client : Client) (s : State) : Outcome Unit :=
  (Lock s).andThen fun s _ =>
    let s := Close client.Conn s
    let s := { s with clients := mapDelete s.clients client.ID }
    Unlock s

/-- Control flow of one iteration of a `for` loop body: fall through to the
next iteration, or `return`. -/
inductive Loop where
  | next
  | ret
deriving DecidableEq, Repr

/-- Body of the `for range ticker.C` loop of `pingClient`, run at a tick at
which the clock reads `now`. -/
def pingClientTick (now : Int) (client : Client) (s : State) : Outcome Loop :=
  (Lock s).andThen fun s _ =>
    if Since now client.LastActive > pongTimeout then
      (Unlock s).andThen fun s _ =>
        (disconnectClient client s).andThen fun s _ =>
          Outcome.returned s Loop.ret
    else
      (Unlock s).andThen fun s _ =>
        match WriteMessage client.Conn PingMessage "ping" s with
        | (s, some _) =>
          (disconnectClient client s).andThen fun s _ =>
            Outcome.returned s Loop.ret
        | (s, none) => Outcome.returned s Loop.next

/-- Sends ping messages to the client: the loop of `pingClient` over the ticks
delivered by the ticker.  Each tick carries the clock reading and the value
that `client.LastActive` holds at that moment (the pong handler writes it
through the pointer between ticks).  The result `Loop.next` means that the loop
is waiting for a further tick, `Loop.ret` that the function has returned. -/
def pingClient (client : Client) : List (Int × Int) → State → Outcome Loop
  | [], s => Outcome.returned s Loop.next
  | (now, lastActive) :: ticks, s =>
    (pingClientTick now { client with LastActive := lastActive } s).andThen fun s c =>
      match c with
      | Loop.ret => Outcome.returned s Loop.ret
      | Loop.next => pingClient client ticks s

/-! ## `src/main.go`: addressed unicast -/

namespace Unicast

/-- Join-time announcement, `sendWelcomeMessage`. -/
def sendWelcomeMessage (ρ : MapOrder) (client : Client) (s : State) : Outcome Unit :=
  (Lock s).andThen fun s _ =>
    let clientList := (ρ.order s.clients).map fun e =>
      if e.1 = client.ID then e.1 ++ " (You)" else e.1
    let welcomeMessage :=
      "Welcome! Your Client ID: " ++ client.ID ++ "\nConnected Clients:\n" ++
        String.intercalate "\n" clientList
    let s := (WriteMessage client.Conn TextMessage welcomeMessage s).1
    Unlock s

/-- Handles new WebSocket connections.  `upgrade` is the result of
`upgrader.Upgrade`, `clientID` the string of `uuid.New()`, `now` the clock.
The two goroutines started at the end run outside this call. -/
def handleWebSocket (ρ : MapOrder) (upgrade : Option Nat) (clientID : String) (now : Int)
    (s : State) : Outcome Unit :=
  match upgrade with
  | none => Outcome.returned s ()
  | some conn =>
    let client := Client.mk clientID conn now
    (Lock s).andThen fun s _ =>
      let s := { s with clients := mapSet s.clients clientID client }
      (Unlock s).andThen fun s _ =>
        sendWelcomeMessage ρ client s

/-- Unicast routing, `sendMessageToClient`; the deferred `Unlock` runs at each
`return`. -/
def sendMessageToClient (messageType : Int) (message : String) (senderID receiverID : String)
    (s : State) : Outcome (Option GoError) :=
  (Lock s).andThen fun s _ =>
    match mapGet s.clients receiverID with
    | none =>
      (Unlock s).andThen fun s _ =>
        Outcome.returned s (some (GoError.errorf ("client " ++ receiverID ++ " not found")))
    | some client =>
      let formattedMessage := "You have message from " ++ senderID ++ ": " ++ message
      match WriteMessage client.Conn messageType formattedMessage s with
      | (s, some err) =>
        (disconnectClient client s).andThen fun s _ =>
          (Unlock s).andThen fun s _ =>
            Outcome.returned s (some err)
      | (s, none) =>
        (Unlock s).andThen fun s _ =>
          Outcome.returned s none

end Unicast

/-! ## `src/websocket_server/main.go`: broadcast -/

namespace Broadcast

/-- Handles new WebSocket connections (no welcome message in this variant). -/
def handleWebSocket (upgrade : Option Nat) (clientID : String) (now : Int)
    (s : State) : Outcome Unit :=
  match upgrade with
  | none => Outcome.returned s ()
  | some conn =>
    let client := Client.mk clientID conn now
    (Lock s).andThen fun s _ =>
      let s := { s with clients := mapSet s.clients clientID client }
      Unlock s

/-- Body of the `range clients` loop of `broadcastMessage`, over the entries
still to be visited.  An entry deleted from the map before it is reached is not
produced. -/
def broadcastLoop (messageType : Int) (message : String) (senderID : String) :
    List (String × Client) → State → Outcome Unit
  | [], s => Outcome.returned s ()
  | (id, client) :: rest, s =>
    if mapGet s.clients id = none then
      broadcastLoop messageType message senderID rest s
    else if id = senderID then
      broadcastLoop messageType message senderID rest s
    else
      match WriteMessage client.Conn messageType message s with
      | (s, some _) =>
        (disconnectClient client s).andThen fun s _ =>
          broadcastLoop messageType message senderID rest s
      | (s, none) => broadcastLoop messageType message senderID rest s

/-- Broadcasts messages to all connected clients. -/
def broadcastMessage (ρ : MapOrder) (messageType : Int) (message : String) (senderID : String)
    (s : State) : Outcome Unit :=
  (Lock s).andThen fun s _ =>
    (broadcastLoop messageType message senderID (ρ.order s.clients) s).andThen fun s _ =>
      Unlock s

end Broadcast

/-! ## Concrete worlds used in the examples -/

/-- Iteration in storage order. -/
def orderStored : MapOrder := ⟨fun m => m, fun _ => List.Perm.refl _⟩

/-- Iteration in reverse storage order. -/
def orderReversed : MapOrder := ⟨fun m => m.reverse, fun m => List.reverse_perm m⟩

/-- Clients "a1" and "b2" are connected, on connections 0 and 1. -/
def twoClients : State :=
  ⟨[("a1", ⟨"a1", 0, 0⟩), ("b2", ⟨"b2", 1, 0⟩)], false, [], []⟩

/-- Clients "a", "b" and "c" are connected, on connections 0, 1 and 2. -/
def threeClients : State :=
  ⟨[("a", ⟨"a", 0, 0⟩), ("b", ⟨"b", 1, 0⟩), ("c", ⟨"c", 2, 0⟩)], false, [], []⟩

/-! ## Observations and runs -/

/-- Two invocations of `disconnectClient` for the same client, one after the
other (the read-failure path and the heartbeat path firing for one identity). -/
def disconnectTwice (client : Client) (s : State) : Outcome Unit :=
  (disconnectClient client s).andThen fun s _ => disconnectClient client s

/-- Number of `Close` calls on a connection recorded in a log. -/
def closeCount (conn : Nat) (log : List Event) : Nat :=
  log.count (Event.close conn)

/-- Frames delivered to a connection by the successful writes of a log, in order. -/
def writesTo (conn : Nat) : List Event → List (Int × String)
  | [] => []
  | Event.write c messageType data true :: log =>
    if c = conn then (messageType, data) :: writesTo conn log else writesTo conn log
  | _ :: log => writesTo conn log

/-- The two programs of the repository. -/
inductive Variant where
  | unicast
  | broadcast

/-- A transition of the running server.

* `connect`: a connection accepted by `handleWebSocket` (upgrade succeeded with
  handle `conn`, generated identity `clientID`, clock `now`; `ρ` is the
  iteration order met by the welcome message).
* `disconnect`: a teardown of `client` on a path that calls `disconnectClient`
  without holding `clientsMu`: the deferred call of `listenForMessages` after a
  read failure, or `pingClient` after a stale check or a failed probe.
* `route`: one message read by `listenForMessages` from `senderID` and handed to
  the router of the program, `sendMessageToClient(messageType, message,
  senderID, receiverID)` in `main.go` and `broadcastMessage(messageType,
  message, senderID)` in `websocket_server/main.go` (`ρ` is the order of its
  range loop; it has no receiver).  The teardown triggered by a failed
  recipient write is the call of `disconnectClient` inside the router. -/
inductive Step where
  | connect (ρ : MapOrder) (conn : Nat) (clientID : String) (now : Int)
  | disconnect (client : Client)
  | route (ρ : MapOrder) (messageType : Int) (message senderID receiverID : String)

/-- Whether a transition is a routed message. -/
def Step.isRoute : Step → Bool
  | Step.route _ _ _ _ _ => true
  | _ => false

/-- One transition of the chosen program. -/
def step (v : Variant) (st : Step) (s : State) : Outcome Unit :=
  match st with
  | Step.connect ρ conn clientID now =>
    match v with
    | Variant.unicast => Unicast.handleWebSocket ρ (some conn) clientID now s
    | Variant.broadcast => Broadcast.handleWebSocket (some conn) clientID now s
  | Step.disconnect client => disconnectClient client s
  | Step.route ρ messageType message senderID receiverID =>
    match v with
    | Variant.unicast =>
      (Unicast.sendMessageToClient messageType message senderID receiverID s).andThen
        fun s _ => Outcome.returned s ()
    | Variant.broadcast => Broadcast.broadcastMessage ρ messageType message senderID s

/-- A sequence of transitions, one after the other. -/
def run (v : Variant) : List Step → State → Outcome Unit
  | [], s => Outcome.returned s ()
  | st :: rest, s => (step v st s).andThen fun s _ => run v rest s

/-- State at program start: empty registry, free mutex, empty log. -/
def initial (broken : List Nat) : State := ⟨[], false, broken, []⟩

/-- An identity has been connected and not yet disconnected along a sequence of
transitions: some connect step for it is followed by no teardown of it. -/
def Live (t : List Step) (k : String) : Prop :=
  ∃ pre post ρ conn now, t = pre ++ Step.connect ρ conn k now :: post ∧
    ∀ c, Step.disconnect c ∈ post → c.ID ≠ k

/-! ## Map lemmas -/

theorem mapGet_eq_none_iff (m : List (String × Client)) (k : String) :
    mapGet m k = none ↔ k ∉ mapKeys m := by
  induction m with
  | nil => simp [mapGet, mapKeys]
  | cons e m ih =>
    obtain ⟨k', v⟩ := e
    by_cases h : k' = k
    · simp [mapGet, mapKeys, h]
    · have h' : ¬ k = k' := fun e => h e.symm
      simp [mapGet, h, h'] at ih ⊢
      simpa [mapKeys, h'] using ih

theorem mapGet_some_mem (m : List (String × Client)) (k : String) (v : Client)
    (h : mapGet m k = some v) : (k, v) ∈ m := by
  induction m with
  | nil => simp [mapGet] at h
  | cons e m ih =>
    obtain ⟨k', v'⟩ := e
    by_cases hk : k' = k
    · simp [mapGet, hk] at h
      simp [hk, h]
    · simp [mapGet, hk] at h
      exact List.mem_cons_of_mem _ (ih h)

theorem mapGet_of_mem (m : List (String × Client)) (k : String) (v : Client)
    (hnd : (mapKeys m).Nodup) (h : (k, v) ∈ m) : mapGet m k = some v := by
  induction m with
  | nil => simp at h
  | cons e m ih =>
    obtain ⟨k', v'⟩ := e
    simp only [mapKeys, List.map_cons, List.nodup_cons] at hnd
    rcases List.mem_cons.mp h with h | h
    · cases h
      simp [mapGet]
    · have hk : k' ≠ k := by
        intro e
        subst e
        exact hnd.1 (List.mem_map.mpr ⟨(k', v), h, rfl⟩)
      simp [mapGet, hk]
      exact ih hnd.2 h

theorem mapDelete_mapDelete (m : List (String × Client)) (k : String) :
    mapDelete (mapDelete m k) k = mapDelete m k := by
  simp [mapDelete, List.filter_filter]

theorem mem_mapKeys_mapDelete (m : List (String × Client)) (k key : String) :
    k ∈ mapKeys (mapDelete m key) ↔ k ∈ mapKeys m ∧ k ≠ key := by
  simp only [mapKeys, mapDelete, List.mem_map, List.mem_filter, decide_eq_true_eq]
  constructor
  · rintro ⟨e, ⟨he, hne⟩, rfl⟩
    exact ⟨⟨e, he, rfl⟩, hne⟩
  · rintro ⟨⟨e, he, rfl⟩, hne⟩
    exact ⟨e, ⟨he, hne⟩, rfl⟩

theorem nodup_mapKeys_mapDelete (m : List (String × Client)) (key : String)
    (h : (mapKeys m).Nodup) : (mapKeys (mapDelete m key)).Nodup := by
  unfold mapKeys mapDelete
  exact (List.Sublist.map _ (List.filter_sublist _)).nodup h

theorem nodup_mapKeys_mapSet (m : List (String × Client)) (key : String) (v : Client)
    (h : (mapKeys m).Nodup) : (mapKeys (mapSet m key v)).Nodup := by
  have h1 := nodup_mapKeys_mapDelete m key h
  have h2 : key ∉ mapKeys (mapDelete m key) := by
    simp [mem_mapKeys_mapDelete]
  simpa [mapSet, mapKeys] using And.intro h2 h1

theorem mapGet_mapDelete_ne (m : List (String × Client)) (k key : String) (h : k ≠ key) :
    mapGet (mapDelete m key) k = mapGet m k := by
  induction m with
  | nil => simp [mapDelete, mapGet]
  | cons e m ih =>
    obtain ⟨k', v⟩ := e
    unfold mapDelete at ih ⊢
    by_cases hk : k' = key
    · subst hk
      have hk' : ¬ k' = k := fun e => h e.symm
      rw [List.filter_cons_of_neg (by simp)]
      simp only [mapGet, hk', if_false]
      exact ih
    · rw [List.filter_cons_of_pos (by simpa using hk)]
      by_cases hkk : k' = k
      · simp [mapGet, hkk]
      · simp only [mapGet, hkk, if_false]
        exact ih

theorem mapGet_mapSet_self (m : List (String × Client)) (key : String) (v : Client) :
    mapGet (mapSet m key v) key = some v := by
  simp [mapSet, mapGet]

theorem mapGet_mapSet_ne (m : List (String × Client)) (k key : String) (v : Client)
    (h : k ≠ key) : mapGet (mapSet m key v) k = mapGet m k := by
  have h' : ¬ key = k := fun e => h e.symm
  simp [mapSet, mapGet, h', mapGet_mapDelete_ne m k key h]

/-! ## Unicast routing -/

/-- C1 (unicast delivery): when the mutex is free, the recipient `r` is
registered as `cl` and the write on its channel succeeds,
`sendMessageToClient` returns `nil` and the only effect is one write on the
recipient channel, with the frame type of the call and with the body
"You have message from " ++ sender ++ ": " ++ text; the registry (and the rest
of the state) is unchanged. -/
theorem sendMessageToClient_delivers (messageType : Int) (t sender r : String) (s : State)
    (cl : Client) (hfree : s.locked = false) (hreg : mapGet s.clients r = some cl)
    (hok : cl.Conn ∉ s.broken) :
    Unicast.sendMessageToClient messageType t sender r s =
      Outcome.returned
        { s with log := s.log ++
            [Event.write cl.Conn messageType ("You have message from " ++ sender ++ ": " ++ t) true] }
        none := by
  simp [Unicast.sendMessageToClient, Lock, Unlock, WriteMessage, Outcome.andThen, hfree, hreg, hok]

theorem sendMessageToClient_delivers_witness :
    twoClients.locked = false ∧ mapGet twoClients.clients "b2" = some ⟨"b2", 1, 0⟩ ∧
      (1 : Nat) ∉ twoClients.broken ∧
      Unicast.sendMessageToClient 1 "hi" "a1" "b2" twoClients =
        Outcome.returned
          { twoClients with log := twoClients.log ++
              [Event.write 1 1 ("You have message from " ++ "a1" ++ ": " ++ "hi") true] }
          none :=
  ⟨by decide, by decide, by decide,
    sendMessageToClient_delivers 1 "hi" "a1" "b2" twoClients ⟨"b2", 1, 0⟩
      (by decide) (by decide) (by decide)⟩

/-- C2 (unknown recipient): when the mutex is free and the recipient identity
is not a key of the registry, `sendMessageToClient` returns the error
"client <r> not found" and the state is unchanged: no write, no close, same
registry, mutex free again. -/
theorem sendMessageToClient_unknown_recipient (messageType : Int) (t sender r : String)
    (s : State) (hfree : s.locked = false) (habs : r ∉ mapKeys s.clients) :
    Unicast.sendMessageToClient messageType t sender r s =
      Outcome.returned s (some (GoError.errorf ("client " ++ r ++ " not found"))) := by
  have hget : mapGet s.clients r = none := (mapGet_eq_none_iff _ _).mpr habs
  obtain ⟨cs, lk, br, lg⟩ := s
  simp only at hfree hget
  subst hfree
  simp [Unicast.sendMessageToClient, Lock, Unlock, Outcome.andThen, hget]

theorem sendMessageToClient_unknown_recipient_witness :
    twoClients.locked = false ∧ "zz" ∉ mapKeys twoClients.clients ∧
      "" ∉ mapKeys twoClients.clients ∧
      Unicast.sendMessageToClient 1 "hi" "a1" "zz" twoClients =
        Outcome.returned twoClients (some (GoError.errorf ("client " ++ "zz" ++ " not found"))) :=
  ⟨by decide, by decide, by decide,
    sendMessageToClient_unknown_recipient 1 "hi" "a1" "zz" twoClients (by decide) (by decide)⟩

/-- General form of the defect behind C3 and C4: `disconnectClient` called
while `clientsMu` is held parks in `Lock`, before `Close` and `delete`. -/
theorem disconnectClient_blocked_of_locked (client : Client) (s : State)
    (h : s.locked = true) : disconnectClient client s = Outcome.blocked s := by
  simp [disconnectClient, Lock, Outcome.andThen, h]

theorem sendMessageToClient_blocks_on_failed_write (messageType : Int) (t sender r : String)
    (s : State) (cl : Client) (hfree : s.locked = false) (hreg : mapGet s.clients r = some cl)
    (hbad : cl.Conn ∈ s.broken) :
    Unicast.sendMessageToClient messageType t sender r s =
      Outcome.blocked
        { s with locked := true, log := s.log ++
            [Event.write cl.Conn messageType ("You have message from " ++ sender ++ ": " ++ t) false] } := by
  simp [Unicast.sendMessageToClient, Lock, WriteMessage, Outcome.andThen, hfree, hreg, hbad,
    disconnectClient]

/-- C3 (delivery failure), evaluated on the code: "a1" sends "hi" to the
registered "b2" whose channel write fails.  The call parks in the `Lock` of
`disconnectClient` with the mutex still held by `sendMessageToClient`: "b2"
stays in the registry, its channel is not closed and nothing is returned. -/
theorem sendMessageToClient_delivery_failure_deadlocks :
    Unicast.sendMessageToClient 1 "hi" "a1" "b2" { twoClients with broken := [1] } =
      Outcome.blocked
        ⟨[("a1", ⟨"a1", 0, 0⟩), ("b2", ⟨"b2", 1, 0⟩)], true, [1],
          [Event.write 1 1 "You have message from a1: hi" false]⟩ := by
  decide

theorem broadcastLoop_blocks_on_failed_write (messageType : Int) (message sender : String)
    (es : List (String × Client)) (s : State) (hheld : s.locked = true)
    (hpres : ∀ e ∈ es, mapGet s.clients e.1 ≠ none)
    (hbad : ∃ e ∈ es, e.1 ≠ sender ∧ e.2.Conn ∈ s.broken) :
    ∃ s1, Broadcast.broadcastLoop messageType message sender es s = Outcome.blocked s1 ∧
      s1.clients = s.clients ∧ ∀ conn, closeCount conn s1.log = closeCount conn s.log := by
  induction es generalizing s with
  | nil =>
    obtain ⟨e, he, _⟩ := hbad
    simp at he
  | cons e es ih =>
    obtain ⟨id, client⟩ := e
    have hp : mapGet s.clients id ≠ none := hpres (id, client) (List.mem_cons_self _ _)
    have hpres1 : ∀ e ∈ es, mapGet s.clients e.1 ≠ none :=
      fun e he => hpres e (List.mem_cons_of_mem _ he)
    rw [Broadcast.broadcastLoop]
    simp only [hp, if_false]
    by_cases hs : id = sender
    · simp only [hs, if_true]
      apply ih s hheld hpres1
      obtain ⟨e, he, hne, hb⟩ := hbad
      rcases List.mem_cons.mp he with h | h
      · subst h
        exact absurd hs hne
      · exact ⟨e, h, hne, hb⟩
    · simp only [hs, if_false]
      by_cases hw : client.Conn ∈ s.broken
      · refine ⟨{ s with log := s.log ++ [Event.write client.Conn messageType message false] },
          ?_, rfl, ?_⟩
        · simp only [WriteMessage, hw, if_true]
          rw [disconnectClient_blocked_of_locked client
            ⟨s.clients, s.locked, s.broken,
              s.log ++ [Event.write client.Conn messageType message false]⟩ hheld]
          rfl
        · intro conn
          simp [closeCount, List.count_append]
      · simp only [WriteMessage, hw, if_false]
        have hbad1 : ∃ e ∈ es, e.1 ≠ sender ∧ e.2.Conn ∈ s.broken := by
          obtain ⟨e, he, hne, hb⟩ := hbad
          rcases List.mem_cons.mp he with h | h
          · subst h
            exact absurd hb hw
          · exact ⟨e, h, hne, hb⟩
        obtain ⟨s1, h1, h2, h3⟩ := ih
          ⟨s.clients, s.locked, s.broken,
            s.log ++ [Event.write client.Conn messageType message true]⟩ hheld hpres1 hbad1
        refine ⟨s1, h1, h2, fun conn => ?_⟩
        rw [h3 conn]
        simp [closeCount, List.count_append]

/-- General form of the defect for broadcast: as soon as one registered entry
other than the sender has a failing write, `broadcastMessage` never returns;
the registry is left as it was and no channel is closed. -/
theorem broadcastMessage_blocks_on_failed_write (ρ : MapOrder) (messageType : Int)
    (message sender : String) (s : State) (hfree : s.locked = false)
    (hbad : ∃ e ∈ s.clients, e.1 ≠ sender ∧ e.2.Conn ∈ s.broken) :
    ∃ s1, Broadcast.broadcastMessage ρ messageType message sender s = Outcome.blocked s1 ∧
      s1.clients = s.clients ∧ ∀ conn, closeCount conn s1.log = closeCount conn s.log := by
  have hmem : ∀ e, e ∈ ρ.order s.clients ↔ e ∈ s.clients := fun e => (ρ.perm s.clients).mem_iff
  obtain ⟨s1, h1, h2, h3⟩ := broadcastLoop_blocks_on_failed_write messageType message sender
    (ρ.order s.clients) ⟨s.clients, true, s.broken, s.log⟩ rfl
    (by
      intro e he
      rw [Ne, mapGet_eq_none_iff, not_not]
      exact List.mem_map.mpr ⟨e, (hmem e).mp he, rfl⟩)
    (by
      obtain ⟨e, he, hne, hb⟩ := hbad
      exact ⟨e, (hmem e).mpr he, hne, hb⟩)
  refine ⟨s1, ?_, h2, h3⟩
  simp only [Broadcast.broadcastMessage, Lock, hfree, Bool.false_eq_true, if_false,
    Outcome.andThen]
  rw [h1]

/-- C4 (broadcast survives failures), evaluated on the code: "a" broadcasts
"hello" to "b" and "c" and the write to "b" fails.  Whatever the iteration
order, the call parks in the `Lock` of `disconnectClient`: "b" stays registered
and is not closed; when "b" is visited first, no write to "c" is attempted. -/
theorem broadcastMessage_failed_write_deadlocks :
    Broadcast.broadcastMessage orderStored 1 "hello" "a" { threeClients with broken := [1] } =
        Outcome.blocked
          ⟨threeClients.clients, true, [1], [Event.write 1 1 "hello" false]⟩ ∧
      Broadcast.broadcastMessage orderReversed 1 "hello" "a" { threeClients with broken := [1] } =
        Outcome.blocked
          ⟨threeClients.clients, true, [1],
            [Event.write 2 1 "hello" true, Event.write 1 1 "hello" false]⟩ := by
  decide

/-! ## Teardown -/

theorem disconnectClient_eq (client : Client) (s : State) (hfree : s.locked = false) :
    disconnectClient client s =
      Outcome.returned
        { s with clients := mapDelete s.clients client.ID,
                 log := s.log ++ [Event.close client.Conn] } () := by
  obtain ⟨cs, lk, br, lg⟩ := s
  simp only at hfree
  subst hfree
  simp [disconnectClient, Lock, Unlock, Close, Outcome.andThen]

/-- C6 as stated fails: for the registered client "b2", two invocations of
`disconnectClient` call `Close` on its channel twice, and the state after two
invocations differs from the state after one. -/
theorem disconnectClient_twice_closes_twice :
    disconnectClient ⟨"b2", 1, 0⟩ twoClients =
        Outcome.returned ⟨[("a1", ⟨"a1", 0, 0⟩)], false, [], [Event.close 1]⟩ () ∧
      disconnectTwice ⟨"b2", 1, 0⟩ twoClients =
        Outcome.returned ⟨[("a1", ⟨"a1", 0, 0⟩)], false, [], [Event.close 1, Event.close 1]⟩ () ∧
      closeCount 1 [Event.close 1, Event.close 1] = 2 ∧
      disconnectTwice ⟨"b2", 1, 0⟩ twoClients ≠ disconnectClient ⟨"b2", 1, 0⟩ twoClients := by
  decide

/-- C6 amended: from a state with the mutex free, one invocation of
`disconnectClient c` removes `c.ID` from the registry and calls `Close` once;
a second invocation leaves the registry as the first left it (the removal is
idempotent) and calls `Close` on the channel once more, so that two
invocations record two close calls. -/
theorem disconnectClient_twice (c : Client) (s : State) (hfree : s.locked = false) :
    disconnectClient c s =
        Outcome.returned
          { s with clients := mapDelete s.clients c.ID,
                   log := s.log ++ [Event.close c.Conn] } () ∧
      disconnectTwice c s =
        Outcome.returned
          { s with clients := mapDelete s.clients c.ID,
                   log := s.log ++ [Event.close c.Conn, Event.close c.Conn] } () ∧
      c.ID ∉ mapKeys (mapDelete s.clients c.ID) ∧
      closeCount c.Conn (s.log ++ [Event.close c.Conn, Event.close c.Conn]) =
        closeCount c.Conn s.log + 2 := by
  refine ⟨disconnectClient_eq c s hfree, ?_, ?_, ?_⟩
  · rw [disconnectTwice, disconnectClient_eq c s hfree]
    simp only [Outcome.andThen]
    rw [disconnectClient_eq c
      ⟨mapDelete s.clients c.ID, s.locked, s.broken, s.log ++ [Event.close c.Conn]⟩ hfree]
    simp [mapDelete_mapDelete]
  · simp [mem_mapKeys_mapDelete]
  · simp [closeCount, List.count_append]

theorem disconnectClient_twice_witness :
    twoClients.locked = false ∧
      disconnectTwice ⟨"b2", 1, 0⟩ twoClients =
        Outcome.returned
          { twoClients with clients := mapDelete twoClients.clients "b2",
                            log := twoClients.log ++ [Event.close 1, Event.close 1] } () :=
  ⟨by decide, (disconnectClient_twice ⟨"b2", 1, 0⟩ twoClients (by decide)).2.1⟩

/-! ## Heartbeat -/

theorem Since_gt_pongTimeout (now t : Int) :
    Since now t > pongTimeout ↔ now - t > 10 * Second := by
  unfold Since Sub maxDuration minDuration pongTimeout Second
  norm_num
  split_ifs <;> constructor <;> intro h <;> omega

theorem pingClientTick_eq (now : Int) (c : Client) (s : State) (hfree : s.locked = false) :
    pingClientTick now c s =
      (if now - c.LastActive > 10 * Second then
        Outcome.returned
          { s with clients := mapDelete s.clients c.ID,
                   log := s.log ++ [Event.close c.Conn] } Loop.ret
      else if c.Conn ∈ s.broken then
        Outcome.returned
          { s with clients := mapDelete s.clients c.ID,
                   log := s.log ++
                     [Event.write c.Conn PingMessage "ping" false, Event.close c.Conn] }
          Loop.ret
      else
        Outcome.returned
          { s with log := s.log ++ [Event.write c.Conn PingMessage "ping" true] } Loop.next) := by
  obtain ⟨cs, lk, br, lg⟩ := s
  simp only at hfree
  subst hfree
  by_cases hstale : now - c.LastActive > 10 * Second
  · have h1 : Since now c.LastActive > pongTimeout := (Since_gt_pongTimeout _ _).mpr hstale
    simp [pingClientTick, Lock, Unlock, Outcome.andThen, h1, hstale, disconnectClient, Close]
  · have h1 : ¬ Since now c.LastActive > pongTimeout :=
      fun h => hstale ((Since_gt_pongTimeout _ _).mp h)
    by_cases hb : c.Conn ∈ br
    · simp [pingClientTick, Lock, Unlock, Outcome.andThen, h1, hstale, hb, WriteMessage,
        disconnectClient, Close]
    · simp [pingClientTick, Lock, Unlock, Outcome.andThen, h1, hstale, hb, WriteMessage]

/-- C7 (heartbeat eviction): at a tick of `pingClient` for `c` with the mutex
free, where the clock reads `now` and `c.LastActive` holds `lastActive`.  The
threshold `pongTimeout` is 10 s, twice `pingInterval`.  If `now - lastActive`
strictly exceeds 10 s, `c` is removed from the registry and its channel closed,
no probe is written and the function returns, whatever ticks would follow.
Otherwise (10 s exactly included) exactly one ping probe is written on the
channel of `c`; if that write succeeds the registry is unchanged and the loop
goes on with the following ticks, and if it fails `c` is torn down and the
function returns. -/
theorem pingClient_tick (now lastActive : Int) (c : Client) (ticks : List (Int × Int))
    (s : State) (hfree : s.locked = false) :
    pongTimeout = 10 * Second ∧ pongTimeout = 2 * pingInterval ∧
      pingClient c ((now, lastActive) :: ticks) s =
        (if now - lastActive > 10 * Second then
          Outcome.returned
            { s with clients := mapDelete s.clients c.ID,
                     log := s.log ++ [Event.close c.Conn] } Loop.ret
        else if c.Conn ∈ s.broken then
          Outcome.returned
            { s with clients := mapDelete s.clients c.ID,
                     log := s.log ++
                       [Event.write c.Conn PingMessage "ping" false, Event.close c.Conn] }
            Loop.ret
        else
          pingClient c ticks
            { s with log := s.log ++ [Event.write c.Conn PingMessage "ping" true] }) := by
  refine ⟨rfl, by decide, ?_⟩
  rw [pingClient, pingClientTick_eq now { c with LastActive := lastActive } s hfree]
  by_cases hstale : now - lastActive > 10 * Second
  · simp [hstale, Outcome.andThen]
  · by_cases hb : c.Conn ∈ s.broken
    · simp [hstale, hb, Outcome.andThen]
    · simp [hstale, hb, Outcome.andThen]

theorem pingClient_tick_witness :
    twoClients.locked = false ∧
      pingClient ⟨"b2", 1, 0⟩ [(10 * Second + 1, 0), (15 * Second + 1, 0)] twoClients =
        Outcome.returned ⟨[("a1", ⟨"a1", 0, 0⟩)], false, [], [Event.close 1]⟩ Loop.ret ∧
      pingClient ⟨"b2", 1, 0⟩ [(10 * Second, 0)] twoClients =
        Outcome.returned ⟨twoClients.clients, false, [], [Event.write 1 9 "ping" true]⟩
          Loop.next := by
  have h1 := (pingClient_tick (10 * Second + 1) 0 ⟨"b2", 1, 0⟩ [(15 * Second + 1, 0)]
    twoClients (by decide)).2.2
  have h2 := (pingClient_tick (10 * Second) 0 ⟨"b2", 1, 0⟩ [] twoClients (by decide)).2.2
  refine ⟨by decide, ?_, ?_⟩
  · rw [h1]
    decide
  · rw [h2]
    decide

/-! ## Registration and welcome message -/

theorem sendWelcomeMessage_eq (ρ : MapOrder) (c : Client) (s : State)
    (hfree : s.locked = false) :
    Unicast.sendWelcomeMessage ρ c s =
      Outcome.returned
        { s with log := s.log ++
            [Event.write c.Conn TextMessage
              ("Welcome! Your Client ID: " ++ c.ID ++ "\nConnected Clients:\n" ++
                String.intercalate "\n"
                  ((ρ.order s.clients).map fun e =>
                    if e.1 = c.ID then e.1 ++ " (You)" else e.1))
              (decide (c.Conn ∉ s.broken))] } () := by
  obtain ⟨cs, lk, br, lg⟩ := s
  simp only at hfree
  subst hfree
  by_cases hb : c.Conn ∈ br
  · simp [Unicast.sendWelcomeMessage, Lock, Unlock, Outcome.andThen, WriteMessage, hb]
  · simp [Unicast.sendWelcomeMessage, Lock, Unlock, Outcome.andThen, WriteMessage, hb]

theorem Broadcast_handleWebSocket_eq (conn : Nat) (clientID : String) (now : Int) (s : State)
    (hfree : s.locked = false) :
    Broadcast.handleWebSocket (some conn) clientID now s =
      Outcome.returned
        { s with clients := mapSet s.clients clientID ⟨clientID, conn, now⟩ } () := by
  obtain ⟨cs, lk, br, lg⟩ := s
  simp only at hfree
  subst hfree
  simp [Broadcast.handleWebSocket, Lock, Unlock, Outcome.andThen]

theorem Unicast_handleWebSocket_eq (ρ : MapOrder) (conn : Nat) (clientID : String) (now : Int)
    (s : State) (hfree : s.locked = false) :
    ∃ ev, Unicast.handleWebSocket ρ (some conn) clientID now s =
      Outcome.returned
        { s with clients := mapSet s.clients clientID ⟨clientID, conn, now⟩,
                 log := s.log ++ [ev] } () := by
  obtain ⟨cs, lk, br, lg⟩ := s
  simp only at hfree
  subst hfree
  simp only [Unicast.handleWebSocket, Lock, Unlock, Outcome.andThen, Bool.false_eq_true,
    if_false, if_true]
  rw [sendWelcomeMessage_eq ρ _ _ rfl]
  exact ⟨_, rfl⟩

/-- C9 as stated fails: registering a connection under the identity "a1",
already present, returns normally in both programs and replaces the existing
entry (connection 0) by the new client (connection 7). -/
theorem handleWebSocket_replaces_existing :
    mapGet twoClients.clients "a1" = some ⟨"a1", 0, 0⟩ ∧
      Broadcast.handleWebSocket (some 7) "a1" 5 twoClients =
        Outcome.returned
          ⟨[("a1", ⟨"a1", 7, 5⟩), ("b2", ⟨"b2", 1, 0⟩)], false, [], []⟩ () ∧
      Unicast.handleWebSocket orderStored (some 7) "a1" 5 twoClients =
        Outcome.returned
          ⟨[("a1", ⟨"a1", 7, 5⟩), ("b2", ⟨"b2", 1, 0⟩)], false, [],
            [Event.write 7 1
              "Welcome! Your Client ID: a1\nConnected Clients:\na1 (You)\nb2" true]⟩ () ∧
      mapGet (mapSet twoClients.clients "a1" ⟨"a1", 7, 5⟩) "a1" ≠
        mapGet twoClients.clients "a1" := by
  decide

/-- C9 amended: the insertion step of `handleWebSocket` has no duplicate check.
From a state with the mutex free it returns normally in both programs, and
afterwards the identity maps to the newly created client, whether or not the
identity was present before (an existing entry is replaced); the entries of
all other identities are unchanged. -/
theorem handleWebSocket_registers (ρ : MapOrder) (conn : Nat) (clientID : String) (now : Int)
    (s : State) (hfree : s.locked = false) :
    (∃ s1, Broadcast.handleWebSocket (some conn) clientID now s = Outcome.returned s1 () ∧
        s1.clients = mapSet s.clients clientID ⟨clientID, conn, now⟩) ∧
      (∃ s2, Unicast.handleWebSocket ρ (some conn) clientID now s = Outcome.returned s2 () ∧
        s2.clients = mapSet s.clients clientID ⟨clientID, conn, now⟩) ∧
      mapGet (mapSet s.clients clientID ⟨clientID, conn, now⟩) clientID =
        some ⟨clientID, conn, now⟩ ∧
      ∀ k, k ≠ clientID →
        mapGet (mapSet s.clients clientID ⟨clientID, conn, now⟩) k = mapGet s.clients k := by
  refine ⟨⟨_, Broadcast_handleWebSocket_eq conn clientID now s hfree, rfl⟩, ?_,
    mapGet_mapSet_self _ _ _, fun k hk => mapGet_mapSet_ne _ _ _ _ hk⟩
  obtain ⟨ev, hev⟩ := Unicast_handleWebSocket_eq ρ conn clientID now s hfree
  exact ⟨_, hev, rfl⟩

theorem handleWebSocket_registers_witness :
    twoClients.locked = false ∧
      (∃ s1, Broadcast.handleWebSocket (some 7) "a1" 5 twoClients = Outcome.returned s1 () ∧
        s1.clients = mapSet twoClients.clients "a1" ⟨"a1", 7, 5⟩) ∧
      (∃ s2, Unicast.handleWebSocket orderStored (some 7) "a1" 5 twoClients =
          Outcome.returned s2 () ∧
        s2.clients = mapSet twoClients.clients "a1" ⟨"a1", 7, 5⟩) ∧
      mapGet (mapSet twoClients.clients "a1" ⟨"a1", 7, 5⟩) "a1" = some ⟨"a1", 7, 5⟩ ∧
      ∀ k, k ≠ "a1" →
        mapGet (mapSet twoClients.clients "a1" ⟨"a1", 7, 5⟩) k = mapGet twoClients.clients k :=
  ⟨by decide, handleWebSocket_registers orderStored 7 "a1" 5 twoClients (by decide)⟩

/-- C10 (join-time announcement): with the mutex free, in a registry (keys
without repetition) that holds the client `c` under its identity,
`sendWelcomeMessage c` makes exactly one write attempt, a text frame on the
channel of `c`, and changes nothing else.  Its body is
"Welcome! Your Client ID: " ++ c.ID ++ newline ++ "Connected Clients:" ++ newline
followed by the newline-joined rendering of a list `ids` that is a permutation
of the registry keys, each key occurring exactly once, where `c.ID` is rendered
as c.ID ++ " (You)" and every other identity bare. -/
theorem sendWelcomeMessage_announces (ρ : MapOrder) (c : Client) (s : State)
    (hfree : s.locked = false) (hnd : (mapKeys s.clients).Nodup)
    (hreg : mapGet s.clients c.ID = some c) :
    ∃ ids : List String, ids.Perm (mapKeys s.clients) ∧
      (∀ k ∈ mapKeys s.clients, ids.count k = 1) ∧ ids.count c.ID = 1 ∧
      Unicast.sendWelcomeMessage ρ c s =
        Outcome.returned
          { s with log := s.log ++
              [Event.write c.Conn TextMessage
                ("Welcome! Your Client ID: " ++ c.ID ++ "\n" ++ "Connected Clients:" ++ "\n" ++
                  String.intercalate "\n"
                    (ids.map fun k => if k = c.ID then c.ID ++ " (You)" else k))
                (decide (c.Conn ∉ s.broken))] } () := by
  have hperm : ((ρ.order s.clients).map Prod.fst).Perm (mapKeys s.clients) :=
    (ρ.perm s.clients).map Prod.fst
  have hnd' : ((ρ.order s.clients).map Prod.fst).Nodup := hperm.nodup_iff.mpr hnd
  have hcount : ∀ k ∈ mapKeys s.clients, ((ρ.order s.clients).map Prod.fst).count k = 1 :=
    fun k hk => List.count_eq_one_of_mem hnd' (hperm.mem_iff.mpr hk)
  have hmem : c.ID ∈ mapKeys s.clients :=
    List.mem_map.mpr ⟨(c.ID, c), mapGet_some_mem _ _ _ hreg, rfl⟩
  refine ⟨(ρ.order s.clients).map Prod.fst, hperm, hcount, hcount _ hmem, ?_⟩
  rw [sendWelcomeMessage_eq ρ c s hfree]
  have hbody : "Welcome! Your Client ID: " ++ c.ID ++ "\n" ++ "Connected Clients:" ++ "\n" =
      "Welcome! Your Client ID: " ++ c.ID ++ "\nConnected Clients:\n" := by
    rw [String.append_assoc, String.append_assoc]
    rfl
  have hlist : ((ρ.order s.clients).map Prod.fst).map
        (fun k => if k = c.ID then c.ID ++ " (You)" else k) =
      (ρ.order s.clients).map fun e => if e.1 = c.ID then e.1 ++ " (You)" else e.1 := by
    rw [List.map_map]
    apply List.map_congr_left
    intro e _
    by_cases h : e.1 = c.ID
    · simp [h]
    · simp [h]
  rw [hbody, hlist]

theorem sendWelcomeMessage_announces_witness :
    twoClients.locked = false ∧ (mapKeys twoClients.clients).Nodup ∧
      mapGet twoClients.clients "b2" = some ⟨"b2", 1, 0⟩ ∧
      ∃ ids : List String, ids.Perm (mapKeys twoClients.clients) ∧
        (∀ k ∈ mapKeys twoClients.clients, ids.count k = 1) ∧ ids.count "b2" = 1 ∧
        Unicast.sendWelcomeMessage orderReversed ⟨"b2", 1, 0⟩ twoClients =
          Outcome.returned
            { twoClients with log := twoClients.log ++
                [Event.write 1 TextMessage
                  ("Welcome! Your Client ID: " ++ "b2" ++ "\n" ++ "Connected Clients:" ++ "\n" ++
                    String.intercalate "\n"
                      (ids.map fun k => if k = "b2" then "b2" ++ " (You)" else k))
                  (decide ((1 : Nat) ∉ twoClients.broken))] } () :=
  ⟨by decide, by decide, by decide,
    sendWelcomeMessage_announces orderReversed ⟨"b2", 1, 0⟩ twoClients
      (by decide) (by decide) (by decide)⟩

/-! ## Broadcast -/

theorem broadcastLoop_all_ok (messageType : Int) (message sender : String)
    (es : List (String × Client)) (s : State)
    (hpres : ∀ e ∈ es, mapGet s.clients e.1 ≠ none)
    (hok : ∀ e ∈ es, e.1 ≠ sender → e.2.Conn ∉ s.broken) :
    Broadcast.broadcastLoop messageType message sender es s =
      Outcome.returned
        { s with log := s.log ++
            (es.filter fun e => decide (e.1 ≠ sender)).map fun e =>
              Event.write e.2.Conn messageType message true } () := by
  induction es generalizing s with
  | nil => simp [Broadcast.broadcastLoop]
  | cons e es ih =>
    obtain ⟨id, client⟩ := e
    have hp : mapGet s.clients id ≠ none := hpres (id, client) (List.mem_cons_self _ _)
    have hpres' : ∀ e ∈ es, mapGet s.clients e.1 ≠ none :=
      fun e he => hpres e (List.mem_cons_of_mem _ he)
    have hok' : ∀ e ∈ es, e.1 ≠ sender → e.2.Conn ∉ s.broken :=
      fun e he => hok e (List.mem_cons_of_mem _ he)
    by_cases hs : id = sender
    · rw [Broadcast.broadcastLoop]
      simp only [hp, hs, if_false, if_true]
      rw [ih s hpres' hok']
      simp
    · have hw : client.Conn ∉ s.broken := hok (id, client) (List.mem_cons_self _ _) hs
      rw [Broadcast.broadcastLoop]
      simp only [hp, hs, if_false, WriteMessage, hw]
      rw [ih ⟨s.clients, s.locked, s.broken,
        s.log ++ [Event.write client.Conn messageType message true]⟩ hpres' hok']
      simp [hs]

theorem writesTo_map_write (k : Nat) (messageType : Int) (message : String)
    (es : List (String × Client)) (hnd : (es.map fun e => e.2.Conn).Nodup) :
    writesTo k (es.map fun e => Event.write e.2.Conn messageType message true) =
      if k ∈ es.map (fun e => e.2.Conn) then [(messageType, message)] else [] := by
  induction es with
  | nil => simp [writesTo]
  | cons e es ih =>
    simp only [List.map_cons, List.nodup_cons] at hnd
    have ih' := ih hnd.2
    by_cases hk : e.2.Conn = k
    · have hnot : k ∉ es.map (fun e => e.2.Conn) := hk ▸ hnd.1
      rw [if_neg hnot] at ih'
      simp [writesTo, hk, ih']
    · have hk' : ¬ k = e.2.Conn := fun h => hk h.symm
      simp only [List.map_cons, writesTo, hk, if_false, List.mem_cons, hk', false_or]
      exact ih'

/-- C5 (broadcast fan-out): with the mutex free, distinct connections for
distinct registry entries and every write to a non-sender entry succeeding,
`broadcastMessage` returns with the registry and everything but the log
unchanged; the events it adds are successful writes of the unchanged payload,
with the frame type of the call, to registered entries other than the sender;
each such entry receives the payload exactly once and the connection
registered under the sender identity receives nothing. -/
theorem broadcastMessage_fan_out (ρ : MapOrder) (messageType : Int) (message sender : String)
    (s : State) (hfree : s.locked = false)
    (hconns : (s.clients.map fun e => e.2.Conn).Nodup)
    (hok : ∀ e ∈ s.clients, e.1 ≠ sender → e.2.Conn ∉ s.broken) :
    ∃ evs : List Event,
      Broadcast.broadcastMessage ρ messageType message sender s =
          Outcome.returned { s with log := s.log ++ evs } () ∧
        (∀ id cl, (id, cl) ∈ s.clients → id ≠ sender →
          writesTo cl.Conn evs = [(messageType, message)]) ∧
        (∀ cl, (sender, cl) ∈ s.clients → writesTo cl.Conn evs = []) ∧
        (∀ ev ∈ evs, ∃ e ∈ s.clients, e.1 ≠ sender ∧
          ev = Event.write e.2.Conn messageType message true) := by
  have hmem : ∀ e, e ∈ ρ.order s.clients ↔ e ∈ s.clients := fun e => (ρ.perm s.clients).mem_iff
  have hinj : ∀ e1 ∈ s.clients, ∀ e2 ∈ s.clients, e1.2.Conn = e2.2.Conn → e1 = e2 :=
    fun e1 h1 e2 h2 h => List.inj_on_of_nodup_map hconns h1 h2 h
  have hnd : (((ρ.order s.clients).filter fun e => decide (e.1 ≠ sender)).map
      fun e => e.2.Conn).Nodup := by
    have h1 : ((ρ.order s.clients).map fun e => e.2.Conn).Nodup :=
      (((ρ.perm s.clients).map _).nodup_iff).mpr hconns
    exact (List.Sublist.map _ (List.filter_sublist _)).nodup h1
  refine ⟨((ρ.order s.clients).filter fun e => decide (e.1 ≠ sender)).map
      fun e => Event.write e.2.Conn messageType message true, ?_, ?_, ?_, ?_⟩
  · obtain ⟨cs, lk, br, lg⟩ := s
    simp only at hfree hmem hok
    subst hfree
    simp only [Broadcast.broadcastMessage, Lock, Bool.false_eq_true, if_false, Outcome.andThen]
    rw [broadcastLoop_all_ok]
    · simp [Unlock]
    · intro e he
      have he' : e ∈ cs := (hmem e).mp he
      rw [Ne, mapGet_eq_none_iff, not_not]
      exact List.mem_map.mpr ⟨e, he', rfl⟩
    · intro e he
      exact hok e ((hmem e).mp he)
  · intro id cl hin hne
    rw [writesTo_map_write _ _ _ _ hnd, if_pos]
    exact List.mem_map.mpr ⟨(id, cl),
      List.mem_filter.mpr ⟨(hmem _).mpr hin, by simpa using hne⟩, rfl⟩
  · intro cl hin
    rw [writesTo_map_write _ _ _ _ hnd, if_neg]
    intro hk
    obtain ⟨e, he, hc⟩ := List.mem_map.mp hk
    obtain ⟨he1, he2⟩ := List.mem_filter.mp he
    have heq : e = (sender, cl) := hinj e ((hmem e).mp he1) _ hin hc
    subst heq
    simp at he2
  · intro ev hev
    obtain ⟨e, he, rfl⟩ := List.mem_map.mp hev
    obtain ⟨he1, he2⟩ := List.mem_filter.mp he
    exact ⟨e, (hmem e).mp he1, by simpa using he2, rfl⟩

theorem broadcastMessage_fan_out_witness :
    threeClients.locked = false ∧
      (threeClients.clients.map fun e => e.2.Conn).Nodup ∧
      (∀ e ∈ threeClients.clients, e.1 ≠ "a" → e.2.Conn ∉ threeClients.broken) ∧
      Broadcast.broadcastMessage orderStored 1 "hello" "a" threeClients =
        Outcome.returned
          { threeClients with
            log := [Event.write 1 1 "hello" true, Event.write 2 1 "hello" true] } () ∧
      writesTo 0 [Event.write 1 1 "hello" true, Event.write 2 1 "hello" true] = [] ∧
      writesTo 1 [Event.write 1 1 "hello" true, Event.write 2 1 "hello" true] = [(1, "hello")] ∧
      writesTo 2 [Event.write 1 1 "hello" true, Event.write 2 1 "hello" true] = [(1, "hello")] ∧
      ∃ evs : List Event,
        Broadcast.broadcastMessage orderStored 1 "hello" "a" threeClients =
            Outcome.returned { threeClients with log := threeClients.log ++ evs } () ∧
          (∀ id cl, (id, cl) ∈ threeClients.clients → id ≠ "a" →
            writesTo cl.Conn evs = [(1, "hello")]) ∧
          (∀ cl, ("a", cl) ∈ threeClients.clients → writesTo cl.Conn evs = []) ∧
          (∀ ev ∈ evs, ∃ e ∈ threeClients.clients, e.1 ≠ "a" ∧
            ev = Event.write e.2.Conn 1 "hello" true) :=
  ⟨by decide, by decide, by decide, by decide, by decide, by decide, by decide,
    broadcastMessage_fan_out orderStored 1 "hello" "a" threeClients
      (by decide) (by decide) (by decide)⟩

/-! ## Registry membership along runs -/

theorem sendMessageToClient_no_failure (messageType : Int) (message sender r : String)
    (s : State) (hfree : s.locked = false) (hb : s.broken = []) :
    ∃ s1 err, Unicast.sendMessageToClient messageType message sender r s =
        Outcome.returned s1 err ∧
      s1.locked = false ∧ s1.broken = s.broken ∧ s1.clients = s.clients := by
  obtain ⟨cs, lk, br, lg⟩ := s
  simp only at hfree hb
  subst hfree
  subst hb
  cases hget : mapGet cs r with
  | none =>
    exact ⟨⟨cs, false, [], lg⟩, some (GoError.errorf ("client " ++ r ++ " not found")),
      by simp [Unicast.sendMessageToClient, Lock, Unlock, Outcome.andThen, hget],
      rfl, rfl, rfl⟩
  | some cl =>
    exact ⟨⟨cs, false, [], lg ++
        [Event.write cl.Conn messageType ("You have message from " ++ sender ++ ": " ++ message)
          true]⟩, none,
      by simp [Unicast.sendMessageToClient, Lock, Unlock, WriteMessage, Outcome.andThen, hget],
      rfl, rfl, rfl⟩

theorem broadcastMessage_no_failure (ρ : MapOrder) (messageType : Int) (message sender : String)
    (s : State) (hfree : s.locked = false) (hb : s.broken = []) :
    ∃ s1, Broadcast.broadcastMessage ρ messageType message sender s = Outcome.returned s1 () ∧
      s1.locked = false ∧ s1.broken = s.broken ∧ s1.clients = s.clients := by
  have hmem : ∀ e, e ∈ ρ.order s.clients ↔ e ∈ s.clients := fun e => (ρ.perm s.clients).mem_iff
  obtain ⟨cs, lk, br, lg⟩ := s
  simp only at hfree hb hmem
  subst hfree
  subst hb
  refine ⟨⟨cs, false, [], lg ++
      ((ρ.order cs).filter fun e => decide (e.1 ≠ sender)).map fun e =>
        Event.write e.2.Conn messageType message true⟩, ?_, rfl, rfl, rfl⟩
  simp only [Broadcast.broadcastMessage, Lock, Bool.false_eq_true, if_false, Outcome.andThen]
  rw [broadcastLoop_all_ok]
  · simp [Unlock]
  · intro e he
    rw [Ne, mapGet_eq_none_iff, not_not]
    exact List.mem_map.mpr ⟨e, (hmem e).mp he, rfl⟩
  · intro e _ _
    simp

/-- Registry after one transition that does not meet a failing write. -/
theorem step_clients (v : Variant) (st : Step) (s : State) (hfree : s.locked = false)
    (hq : st.isRoute = true → s.broken = []) :
    ∃ s1, step v st s = Outcome.returned s1 () ∧ s1.locked = false ∧ s1.broken = s.broken ∧
      s1.clients =
        match st with
        | Step.connect _ conn clientID now => mapSet s.clients clientID ⟨clientID, conn, now⟩
        | Step.disconnect c => mapDelete s.clients c.ID
        | Step.route _ _ _ _ _ => s.clients := by
  cases st with
  | connect ρ conn clientID now =>
    cases v with
    | unicast =>
      obtain ⟨ev, hev⟩ := Unicast_handleWebSocket_eq ρ conn clientID now s hfree
      exact ⟨_, hev, hfree, rfl, rfl⟩
    | broadcast =>
      exact ⟨_, Broadcast_handleWebSocket_eq conn clientID now s hfree, hfree, rfl, rfl⟩
  | disconnect c =>
    exact ⟨_, disconnectClient_eq c s hfree, hfree, rfl, rfl⟩
  | route ρ messageType message senderID receiverID =>
    have hb : s.broken = [] := hq rfl
    cases v with
    | unicast =>
      obtain ⟨s1, err, h1, h2, h3, h4⟩ :=
        sendMessageToClient_no_failure messageType message senderID receiverID s hfree hb
      exact ⟨s1, by simp [step, h1, Outcome.andThen], h2, h3, h4⟩
    | broadcast =>
      obtain ⟨s1, h1, h2, h3, h4⟩ :=
        broadcastMessage_no_failure ρ messageType message senderID s hfree hb
      exact ⟨s1, h1, h2, h3, h4⟩

theorem run_append_singleton (v : Variant) (t : List Step) (st : Step) (s : State) :
    run v (t ++ [st]) s = (run v t s).andThen fun s1 _ => step v st s1 := by
  induction t generalizing s with
  | nil =>
    simp only [List.nil_append, run, Outcome.andThen]
    cases step v st s <;> rfl
  | cons a t ih =>
    simp only [List.cons_append, run]
    cases step v a s with
    | returned s1 u => simpa [Outcome.andThen] using ih s1
    | blocked s1 => rfl
    | fatal s1 => rfl

theorem Live_append_singleton (t : List Step) (st : Step) (k : String) :
    Live (t ++ [st]) k ↔
      (∃ ρ conn now, st = Step.connect ρ conn k now) ∨
        (Live t k ∧ ∀ c, st = Step.disconnect c → c.ID ≠ k) := by
  constructor
  · rintro ⟨pre, post, ρ, conn, now, heq, hpost⟩
    rcases List.eq_nil_or_concat post with hnil | ⟨post1, b, hcat⟩
    · subst hnil
      have h := List.append_inj_right' heq rfl
      simp only [List.cons.injEq, and_true] at h
      exact Or.inl ⟨ρ, conn, now, h⟩
    · subst hcat
      have heq' : t ++ [st] = (pre ++ Step.connect ρ conn k now :: post1) ++ [b] := by
        rw [heq]
        simp
      have h1 := List.append_inj_left' heq' rfl
      have h2 := List.append_inj_right' heq' rfl
      simp only [List.cons.injEq, and_true] at h2
      refine Or.inr ⟨⟨pre, post1, ρ, conn, now, h1, ?_⟩, ?_⟩
      · intro c hc
        exact hpost c (by simp [hc])
      · intro c hc
        exact hpost c (by simp [← h2, ← hc])
  · rintro (⟨ρ, conn, now, rfl⟩ | ⟨⟨pre, post, ρ, conn, now, heq, hpost⟩, hst⟩)
    · exact ⟨t, [], ρ, conn, now, rfl, by simp⟩
    · refine ⟨pre, post ++ [st], ρ, conn, now, by simp [heq], ?_⟩
      intro c hc
      rcases List.mem_append.mp hc with h | h
      · exact hpost c h
      · exact hst c (List.mem_singleton.mp h).symm

theorem mem_mapKeys_mapSet (m : List (String × Client)) (k key : String) (v : Client) :
    k ∈ mapKeys (mapSet m key v) ↔ k = key ∨ k ∈ mapKeys m := by
  have h := mem_mapKeys_mapDelete m k key
  simp only [mapSet, mapKeys, List.map_cons, List.mem_cons] at h ⊢
  rw [h]
  by_cases hk : k = key
  · simp [hk]
  · simp [hk]

theorem mapGet_mapDelete_self (m : List (String × Client)) (key : String) :
    mapGet (mapDelete m key) key = none := by
  rw [mapGet_eq_none_iff, mem_mapKeys_mapDelete]
  simp

/-- Scope in which the membership invariant holds: along every finite sequence
of transitions from the empty registry in which no routed message meets a
failing write (no routed message at all, or no failing connection), in either
program, the run completes with the mutex free, no key is repeated, the keys
are exactly the identities for which some connect step is followed by no
teardown of that identity, and every key maps to a client carrying that same
identity. -/
theorem registry_membership_without_router_failure (v : Variant) (broken : List Nat)
    (t : List Step) (hq : ∀ st ∈ t, st.isRoute = true → broken = []) :
    ∃ s, run v t (initial broken) = Outcome.returned s () ∧ s.locked = false ∧
      s.broken = broken ∧ (mapKeys s.clients).Nodup ∧
      (∀ k, k ∈ mapKeys s.clients ↔
        ∃ pre post ρ conn now, t = pre ++ Step.connect ρ conn k now :: post ∧
          ∀ c, Step.disconnect c ∈ post → c.ID ≠ k) ∧
      (∀ k c, mapGet s.clients k = some c → c.ID = k) := by
  induction t using List.reverseRecOn with
  | nil =>
    refine ⟨initial broken, rfl, rfl, rfl, by simp [initial, mapKeys], ?_, ?_⟩
    · intro k
      simp [initial, mapKeys]
    · intro k c h
      simp [initial, mapGet] at h
  | append_singleton t st ih =>
    obtain ⟨s, hrun, hfree, hbr, hnd, hkeys, hid⟩ :=
      ih (fun st1 h1 => hq st1 (List.mem_append_left _ h1))
    obtain ⟨s1, hstep, hfree1, hbr1, hclients⟩ := step_clients v st s hfree
      (fun h => hbr.trans (hq st (by simp) h))
    refine ⟨s1, ?_, hfree1, hbr1.trans hbr, ?_, ?_, ?_⟩
    · rw [run_append_singleton, hrun]
      exact hstep
    · rw [hclients]
      cases st with
      | connect ρ conn clientID now => exact nodup_mapKeys_mapSet _ _ _ hnd
      | disconnect c => exact nodup_mapKeys_mapDelete _ _ hnd
      | route ρ messageType message senderID receiverID => exact hnd
    · intro k
      have hlive : Live t k ↔ k ∈ mapKeys s.clients := (hkeys k).symm
      change k ∈ mapKeys s1.clients ↔ Live (t ++ [st]) k
      rw [Live_append_singleton, hlive, hclients]
      cases st with
      | connect ρ conn clientID now =>
        simp only [mem_mapKeys_mapSet]
        constructor
        · rintro (h | h)
          · exact Or.inl ⟨ρ, conn, now, by rw [h]⟩
          · exact Or.inr ⟨h, fun c hc => by cases hc⟩
        · rintro (⟨ρ1, conn1, now1, h⟩ | ⟨h, _⟩)
          · cases h
            exact Or.inl rfl
          · exact Or.inr h
      | disconnect c =>
        simp only [mem_mapKeys_mapDelete]
        constructor
        · rintro ⟨h1, h2⟩
          refine Or.inr ⟨h1, fun c1 hc => ?_⟩
          cases hc
          exact fun h => h2 h.symm
        · rintro (⟨ρ1, conn1, now1, h⟩ | ⟨h1, h2⟩)
          · cases h
          · exact ⟨h1, fun h => h2 c rfl h.symm⟩
      | route ρ messageType message senderID receiverID =>
        constructor
        · intro h
          exact Or.inr ⟨h, fun c hc => by cases hc⟩
        · rintro (⟨ρ1, conn1, now1, h⟩ | ⟨h, _⟩)
          · cases h
          · exact h
    · intro k c1 hget
      rw [hclients] at hget
      cases st with
      | connect ρ conn clientID now =>
        by_cases hk : k = clientID
        · subst hk
          simp only [mapGet_mapSet_self, Option.some.injEq] at hget
          rw [← hget]
        · simp only [mapGet_mapSet_ne _ _ _ _ hk] at hget
          exact hid k c1 hget
      | disconnect c =>
        by_cases hk : k = c.ID
        · subst hk
          simp only [mapGet_mapDelete_self] at hget
          cases hget
        · simp only [mapGet_mapDelete_ne _ _ _ hk] at hget
          exact hid k c1 hget
      | route ρ messageType message senderID receiverID => exact hid k c1 hget

/-- C8 (registry membership invariant), evaluated on the code: "a1" and "b2"
connect, the channel of "b2" (connection 1) fails on writes, and "a1" sends a
message that reaches "b2".  The teardown of "b2" triggered by the failed write
parks in the `Lock` of `disconnectClient`, in both programs: "b2" stays a key
of the registry although its teardown has been triggered, its channel is not
closed and the mutex stays held.  From that state a further `handleWebSocket`
parks before its insertion, so the connection "c3" never becomes a key, and a
teardown of "b2" from the read-failure path parks as well. -/
theorem registry_leaks_after_router_write_failure :
    run Variant.unicast
        [Step.connect orderStored 0 "a1" 0, Step.connect orderStored 1 "b2" 0,
          Step.route orderStored 1 "hi" "a1" "b2"] (initial [1]) =
      Outcome.blocked
        ⟨[("b2", ⟨"b2", 1, 0⟩), ("a1", ⟨"a1", 0, 0⟩)], true, [1],
          [Event.write 0 1 "Welcome! Your Client ID: a1\nConnected Clients:\na1 (You)" true,
            Event.write 1 1 "Welcome! Your Client ID: b2\nConnected Clients:\nb2 (You)\na1"
              false,
            Event.write 1 1 "You have message from a1: hi" false]⟩ ∧
      run Variant.broadcast
        [Step.connect orderStored 0 "a1" 0, Step.connect orderStored 1 "b2" 0,
          Step.route orderStored 1 "hi" "a1" ""] (initial [1]) =
      Outcome.blocked
        ⟨[("b2", ⟨"b2", 1, 0⟩), ("a1", ⟨"a1", 0, 0⟩)], true, [1],
          [Event.write 1 1 "hi" false]⟩ ∧
      "b2" ∈ mapKeys [("b2", (⟨"b2", 1, 0⟩ : Client)), ("a1", ⟨"a1", 0, 0⟩)] ∧
      Broadcast.handleWebSocket (some 2) "c3" 0
        ⟨[("b2", ⟨"b2", 1, 0⟩), ("a1", ⟨"a1", 0, 0⟩)], true, [1],
          [Event.write 1 1 "hi" false]⟩ =
      Outcome.blocked
        ⟨[("b2", ⟨"b2", 1, 0⟩), ("a1", ⟨"a1", 0, 0⟩)], true, [1],
          [Event.write 1 1 "hi" false]⟩ ∧
      disconnectClient ⟨"b2", 1, 0⟩
        ⟨[("b2", ⟨"b2", 1, 0⟩), ("a1", ⟨"a1", 0, 0⟩)], true, [1],
          [Event.write 1 1 "hi" false]⟩ =
      Outcome.blocked
        ⟨[("b2", ⟨"b2", 1, 0⟩), ("a1", ⟨"a1", 0, 0⟩)], true, [1],
          [Event.write 1 1 "hi" false]⟩ := by
  decide

end Relay
